import Mathlib

/-!
# Verification of the sequential geocoding pipeline of `app.component.ts`

This file gives a shallow embedding of the CORE of the application:
the Retry Resolver (`geocodeWithRetry`, source lines 251-297) and the
Batch Runner (`startSearch` / `stopSearch`, source lines 245-373), together
with the settings-save validation (`saveSettings`, source lines 106-147).

The external Yandex geocoding provider is modelled as an oracle: for each
attempt index it supplies the result of the viewport-biased lookup and of the
global fallback lookup.  The asynchronously mutable `searchCancelled` flag is
modelled by oracles giving the value the code observes at each of its read
points (top of each retry attempt, top of each job iteration); the flag is
read by the code only at those points.
-/

namespace MapYandex

/-! ## Definitions: shallow embedding of the source -/

/-- JavaScript `haystack.startsWith(needle)` on character lists. -/
def listStartsWith : List Char → List Char → Bool
  | _, [] => true
  | [], _ :: _ => false
  | a :: as, b :: bs => a = b && listStartsWith as bs

/-- JavaScript `String.prototype.includes`: contiguous-substring test. -/
def listContainsSub : List Char → List Char → Bool
  | [], pat => pat.isEmpty
  | h :: t, pat => listStartsWith (h :: t) pat || listContainsSub t pat

/-- `s.includes(pat)` from JavaScript, on Lean strings. -/
def strIncludes (s pat : String) : Bool :=
  listContainsSub s.toList pat.toList

/-- An error thrown by a provider call (`ymaps.geocode`).  The source reads
`error?.status` and `error?.message` with optional chaining, so both fields
are optional. -/
structure GeoError where
  status : Option Nat
  message : Option String
deriving DecidableEq, Repr

/-- Source lines 279-280: an error is treated as an API-key
(authentication/authorization) error when its status is 401 or 403 or its
message contains `"Invalid key"` or `"API key"`. -/
def isAuthError (e : GeoError) : Bool :=
  e.status = some 401 || e.status = some 403 ||
    (match e.message with
     | some m => strIncludes m "Invalid key" || strIncludes m "API key"
     | none => false)

/-- A geo object returned by the provider: the code uses
`geometry.getCoordinates()` and `getAddressLine()` (source lines 334-335). -/
structure GeoObject where
  coords : Rat × Rat
  addressLine : String
deriving DecidableEq, Repr

/-- Result of one `ymaps.geocode` call: either it resolves, with
`geoObjects.get(0)` possibly absent, or it rejects with an error. -/
inductive GeoCallResult where
  | ok (g : Option GeoObject)
  | err (e : GeoError)
deriving DecidableEq, Repr

/-- Which of the two lookups inside one attempt a provider call was:
the viewport-biased one (`boundedBy: this.map.getBounds()`, line 263) or the
global fallback (line 270). -/
inductive CallKind where
  | biased
  | global
deriving DecidableEq, Repr

/-- Oracle for one `geocodeWithRetry` run: the provider responses for the
biased and global lookup of each attempt, and the value of the mutable
`searchCancelled` flag observed at the top of each attempt (line 257). -/
structure ResolveEnv where
  biased : Nat → GeoCallResult
  global : Nat → GeoCallResult
  cancelledAtAttempt : Nat → Bool

/-- How one `geocodeWithRetry` invocation ends, as seen by the caller:
`ret g` is `return firstGeoObject` (line 274, `g = none` when both lookups
found nothing), `cancelledErr` the throw at line 258, `authErr e` the
rethrow at line 282, `exhausted e` the `throw lastError` at line 296. -/
inductive ResolveOutcome where
  | ret (g : Option GeoObject)
  | cancelledErr
  | authErr (e : GeoError)
  | exhausted (e : GeoError)
deriving DecidableEq, Repr

/-- Observable trace of one `geocodeWithRetry` run: the provider calls issued
(attempt index and lookup kind, in order), the backoff waits slept (seconds,
in order), the outcome, and whether the run set the component's `mapError`
signal (line 281, done exactly on an auth error). -/
structure ResolveTrace where
  calls : List (Nat × CallKind)
  waits : List Rat
  outcome : ResolveOutcome
  authFlagSet : Bool
deriving DecidableEq, Repr

/-- Result of the `try` block of one attempt (source lines 261-274): either
the block returns a (possibly absent) geo object, or a provider call threw.
`calls` records which lookups were issued inside the block. -/
inductive AttemptStep where
  | ret (g : Option GeoObject) (calls : List CallKind)
  | fail (e : GeoError) (calls : List CallKind)
deriving DecidableEq, Repr

/-- The lookups issued by the `try` block of an attempt. -/
def attemptCalls : AttemptStep → List CallKind
  | .ret _ cs => cs
  | .fail _ cs => cs

/-- The `try` block of attempt `a` (source lines 261-274): biased lookup
first; only when it yields no object, the global fallback within the same
attempt. -/
def tryLookups (env : ResolveEnv) (a : Nat) : AttemptStep :=
  match env.biased a with
  | .ok (some g) => .ret (some g) [CallKind.biased]
  | .ok none =>
    match env.global a with
    | .ok g => .ret g [CallKind.biased, CallKind.global]
    | .err e => .fail e [CallKind.biased, CallKind.global]
  | .err e => .fail e [CallKind.biased]

/-- Source line 287: `retryDelays[Math.min(attempt, retryDelays.length - 1)]`. -/
def delayAt (delays : List Rat) (a : Nat) : Rat :=
  delays.getD (min a (delays.length - 1)) 0

/-- The body of one iteration of the retry loop of `geocodeWithRetry`
(source lines 256-291) at attempt index `attempt`.  `next` is the trace of
the rest of the loop when further attempts remain (`attempt < retryCount`,
line 286), and `none` on the last attempt (where the loop falls through to
`throw lastError`, line 296). -/
def attemptOnce (env : ResolveEnv) (delays : List Rat) (attempt : Nat)
    (next : Option ResolveTrace) : ResolveTrace :=
  if env.cancelledAtAttempt attempt then
    ⟨[], [], .cancelledErr, false⟩
  else
    match tryLookups env attempt with
    | .ret g cs => ⟨cs.map (fun k => (attempt, k)), [], .ret g, false⟩
    | .fail e cs =>
      if isAuthError e then
        ⟨cs.map (fun k => (attempt, k)), [], .authErr e, true⟩
      else
        match next with
        | none => ⟨cs.map (fun k => (attempt, k)), [], .exhausted e, false⟩
        | some rest =>
          ⟨cs.map (fun k => (attempt, k)) ++ rest.calls,
           delayAt delays attempt :: rest.waits,
           rest.outcome, rest.authFlagSet⟩

/-- The retry loop of `geocodeWithRetry` (source lines 255-292), starting at
attempt index `attempt` with `remaining` further attempts allowed after the
current one (`remaining = retryCount - attempt` in the source, so the loop
guard `attempt < retryCount` of line 286 becomes `remaining > 0`). -/
def geocodeLoop (env : ResolveEnv) (delays : List Rat) :
    (remaining attempt : Nat) → ResolveTrace
  | 0, attempt => attemptOnce env delays attempt none
  | r + 1, attempt =>
    attemptOnce env delays attempt (some (geocodeLoop env delays r (attempt + 1)))

/-- `geocodeWithRetry` (source lines 251-297): runs the loop from attempt 0;
with `retryCount` retries after the first attempt the loop body executes up
to `retryCount + 1` times. -/
def geocodeWithRetry (env : ResolveEnv) (retryCount : Nat)
    (delays : List Rat) : ResolveTrace :=
  geocodeLoop env delays retryCount 0

/-- The number of provider-call attempts the loop may make:
the source loop `for (attempt = 0; attempt <= retryCount; attempt++)` runs
`retryCount + 1` times, which the source itself calls the attempt count in
its log messages (`попытка x/(retryCount + 1)`). -/
def maxAttempts (retryCount : Nat) : Nat :=
  retryCount + 1

/-- Environment in which every provider call rejects with the same transient
(HTTP 500) error and the user never cancels. -/
def constErrEnv : ResolveEnv where
  biased := fun _ => .err ⟨some 500, some "timeout"⟩
  global := fun _ => .err ⟨some 500, some "timeout"⟩
  cancelledAtAttempt := fun _ => false

/-- Environment in which every provider call rejects with HTTP 403. -/
def authErrEnv : ResolveEnv where
  biased := fun _ => .err ⟨some 403, none⟩
  global := fun _ => .err ⟨some 403, none⟩
  cancelledAtAttempt := fun _ => false

/-- Environment in which every lookup resolves but finds nothing. -/
def emptyEnv : ResolveEnv where
  biased := fun _ => .ok none
  global := fun _ => .ok none
  cancelledAtAttempt := fun _ => false

/-- A placemark added to the map collection by `addPlacemark`
(source lines 336, 375-393): coordinates, 1-based index, the original input
line, and the normalized address returned by the provider. -/
structure Placemark where
  coords : Rat × Rat
  index : Nat
  original : String
  found : String
deriving DecidableEq, Repr

/-- Message set by `geocodeWithRetry` on an API-key error (source line 281). -/
def invalidKeyMessage : String :=
  "Неверный API ключ. Откройте настройки и проверьте ключ."

/-- The component state touched by the search pipeline: the session signals
(`isSearching`, `foundAddressesCount`, `totalAddressesCount`,
`notFoundAddresses`, `mapError`, `mapInitialized`), the private
`searchCancelled` flag, and the placemark collection
(`geoObjectsCollection`). -/
structure AppState where
  isSearching : Bool
  foundAddressesCount : Nat
  totalAddressesCount : Nat
  notFoundAddresses : List String
  mapError : Option String
  searchCancelled : Bool
  placemarks : List Placemark
  mapInitialized : Bool
deriving DecidableEq, Repr

/-- `stopSearch` (source lines 245-248): synchronously sets the cancelled
flag and clears the searching signal. -/
def stopSearch (st : AppState) : AppState :=
  { st with searchCancelled := true, isSearching := false }

/-- Oracle for a whole batch run: `cancelAtJob i` is the value of the
mutable `searchCancelled` flag observed at the top of the job loop for job
`i` (source line 324, covering a user `stopSearch` during an earlier job or
during the inter-job pause), and `jobEnv i` is the resolver oracle for job
`i`. -/
structure BatchEnv where
  cancelAtJob : Nat → Bool
  jobEnv : Nat → ResolveEnv

/-- Whether the resolver invocation for a job threw (entering the `catch` of
source lines 342-359) rather than returning a (possibly absent) geo
object. -/
def outcomeThrew : ResolveOutcome → Bool
  | .ret _ => false
  | .cancelledErr => true
  | .authErr _ => true
  | .exhausted _ => true

/-- The state change one job makes (source lines 330-353): first the
`mapError` signal set by `geocodeWithRetry` itself on an auth error
(line 281); then either the found branch (placemark with 1-based index
`i + 1`, counter increment, lines 333-337) or — for a no-match return as
well as for any thrown error — the append of the raw address to
`notFoundAddresses` (lines 338-341 and 352). -/
def jobStateUpdate (tr : ResolveTrace) (addr : String) (i : Nat)
    (st : AppState) : AppState :=
  let st1 := if tr.authFlagSet then
    { st with mapError := some invalidKeyMessage } else st
  match tr.outcome with
  | .ret (some g) =>
    { st1 with
      placemarks := st1.placemarks
        ++ [⟨g.coords, i + 1, addr, g.addressLine⟩],
      foundAddressesCount := st1.foundAddressesCount + 1 }
  | _ => { st1 with notFoundAddresses := st1.notFoundAddresses ++ [addr] }

/-- The job loop of `startSearch` (source lines 323-363), processing `jobs`
starting at loop index `i` in state `st`.  Returns the final state and the
list of loop indices of the jobs actually attempted (those whose
`geocodeWithRetry` call was entered).  The loop breaks when the cancelled
flag is observed at the top of an iteration (line 324), or — after a thrown
resolution with the `mapError` signal set — via `stopSearch` and `break`
(lines 355-358). -/
def runJobs (benv : BatchEnv) (retryCount : Nat) (delays : List Rat) :
    List String → Nat → AppState → AppState × List Nat
  | [], _, st => (st, [])
  | addr :: rest, i, st =>
    if benv.cancelAtJob i then (st, [])
    else
      let tr := geocodeWithRetry (benv.jobEnv i) retryCount delays
      let st2 := jobStateUpdate tr addr i st
      if outcomeThrew tr.outcome && st2.mapError.isSome then
        (stopSearch st2, [i])
      else
        let next := runJobs benv retryCount delays rest (i + 1) st2
        (next.1, i :: next.2)

/-- JavaScript `str.split('\n')` on the code points of `str`: the list of
(possibly empty) segments between newline characters. -/
def splitOnNewline : List Char → List (List Char)
  | [] => [[]]
  | c :: rest =>
    match splitOnNewline rest with
    | [] => [[]]
    | cur :: others =>
      if c = '\n' then [] :: cur :: others else (c :: cur) :: others

/-- The whitespace class stripped by JavaScript `String.prototype.trim`,
restricted to its ASCII members plus NBSP and the BOM. -/
def isJsWhitespace (c : Char) : Bool :=
  c = ' ' || c = '\t' || c = '\n' || c = '\r' ||
    c = '\x0b' || c = '\x0c' || c = '\u00A0' || c = '\uFEFF'

/-- JavaScript `str.trim()`: strip leading and trailing whitespace. -/
def jsTrim (s : String) : String :=
  ⟨(((s.toList.dropWhile isJsWhitespace).reverse.dropWhile
      isJsWhitespace).reverse)⟩

/-- JavaScript `str.split('\n')` as a list of Lean strings. -/
def jsSplitNewline (s : String) : List String :=
  (splitOnNewline s.toList).map (fun l => (⟨l⟩ : String))

/-- Parsing of the raw input (source lines 311-314): split on newlines,
trim, drop empty lines. -/
def parseAddresses (input : String) : List String :=
  ((jsSplitNewline input).map jsTrim).filter (fun addr => addr.length > 0)

/-- The state after the initialization block of `startSearch`
(source lines 305-316): searching on, cancelled flag reset, placemark
collection cleared, counters reset, and the total set from the parsed
input. -/
def searchInitState (st : AppState) (input : String) : AppState :=
  { st with
    isSearching := true
    searchCancelled := false
    placemarks := []
    foundAddressesCount := 0
    notFoundAddresses := []
    totalAddressesCount := (parseAddresses input).length }

/-- `startSearch` (source lines 299-373): guard on map initialization, reset
the session, parse the input; on an empty job list complete immediately,
otherwise run the job loop and clear `isSearching` at the end.  Returns the
final state and the loop indices of the attempted jobs. -/
def startSearch (benv : BatchEnv) (retryCount : Nat) (delays : List Rat)
    (input : String) (st : AppState) : AppState × List Nat :=
  if st.mapInitialized = false then (st, [])
  else
    let st2 := searchInitState st input
    let addresses := parseAddresses input
    if addresses.length = 0 then ({ st2 with isSearching := false }, [])
    else
      let res := runJobs benv retryCount delays addresses 0 st2
      ({ res.1 with isSearching := false }, res.2)

/-- Environment whose biased lookup always finds an object. -/
def foundEnv : ResolveEnv where
  biased := fun _ => .ok (some ⟨(1, 2), "found line"⟩)
  global := fun _ => .ok none
  cancelledAtAttempt := fun _ => false

/-- Batch environment: job 0 resolves to a found object, every later job to
a no-match; the user never cancels. -/
def mixedBatchEnv : BatchEnv where
  cancelAtJob := fun _ => false
  jobEnv := fun i => if i = 0 then foundEnv else emptyEnv

/-- Batch environment in which every job hits a 403 auth error. -/
def authBatchEnv : BatchEnv where
  cancelAtJob := fun _ => false
  jobEnv := fun _ => authErrEnv

/-- Batch environment in which the cancelled flag is observed set at every
job boundary. -/
def cancelAllBatchEnv : BatchEnv where
  cancelAtJob := fun _ => true
  jobEnv := fun _ => emptyEnv

/-- A fresh component state with the map initialized. -/
def initialAppState : AppState where
  isSearching := false
  foundAddressesCount := 0
  totalAddressesCount := 0
  notFoundAddresses := []
  mapError := none
  searchCancelled := false
  placemarks := []
  mapInitialized := true

/-- A mid-session state with the map not initialized. -/
def uninitState : AppState where
  isSearching := true
  foundAddressesCount := 5
  totalAddressesCount := 7
  notFoundAddresses := ["x"]
  mapError := some "err"
  searchCancelled := true
  placemarks := []
  mapInitialized := false

/-- Application settings (source lines 19-23). -/
structure AppSettings where
  apiKey : String
  retryCount : Int
  retryDelays : List Rat
deriving DecidableEq, Repr

/-- The default settings (source lines 45-49). -/
def defaultSettings : AppSettings where
  apiKey := ""
  retryCount := 3
  retryDelays := [1, 2, 4]

/-- The settings-relevant component state: the in-memory settings signal,
the persisted localStorage blob, and the settings-dialog flag. -/
structure SettingsState where
  settings : AppSettings
  stored : Option AppSettings
  isSettingsOpen : Bool
deriving DecidableEq, Repr

/-- The delays parsing of `saveSettings` (source lines 108-111): the text is
split on commas and each token parsed with `parseFloat`; `parseFloat` is a
host JavaScript builtin, so a token is modelled by its parse result (`none`
for `NaN`); the filter keeps the strictly positive parsed values. -/
def parseDelays (tokens : List (Option Rat)) : List Rat :=
  tokens.filterMap (fun t =>
    match t with
    | some n => if 0 < n then some n else none
    | none => none)

/-- `saveSettings` (source lines 106-147), with the delays text represented
by its per-token `parseFloat` results.  An empty parsed delay list (line
113) or a blank trimmed API key (line 124) aborts with an alert, leaving
both the in-memory settings and the persisted blob unchanged; otherwise the
new settings are stored in memory, persisted, and the dialog closes.  (The
page reload on an API-key change and the script loading, lines 136-146, are
external effects that do not touch the settings state.) -/
def saveSettings (tempApiKey : String) (tempRetryCount : Int)
    (delayTokens : List (Option Rat)) (st : SettingsState) : SettingsState :=
  let delays := parseDelays delayTokens
  if delays = [] then st
  else
    let newSettings : AppSettings :=
      { apiKey := jsTrim tempApiKey
        retryCount := tempRetryCount
        retryDelays := delays }
    if newSettings.apiKey = "" then st
    else
      { settings := newSettings
        stored := some newSettings
        isSettingsOpen := false }

/-- A settings state holding the defaults, nothing persisted yet. -/
def freshSettingsState : SettingsState where
  settings := defaultSettings
  stored := none
  isSettingsOpen := true

/-! ## Theorems -/

theorem tryLookups_biased_err {env : ResolveEnv} {a : Nat} {e : GeoError}
    (hb : env.biased a = .err e) :
    tryLookups env a = .fail e [CallKind.biased] := by
  simp [tryLookups, hb]

theorem tryLookups_global_err {env : ResolveEnv} {a : Nat} {e : GeoError}
    (hb : env.biased a = .ok none) (hg : env.global a = .err e) :
    tryLookups env a = .fail e [CallKind.biased, CallKind.global] := by
  simp [tryLookups, hb, hg]

theorem tryLookups_both_empty {env : ResolveEnv} {a : Nat}
    (hb : env.biased a = .ok none) (hg : env.global a = .ok none) :
    tryLookups env a = .ret none [CallKind.biased, CallKind.global] := by
  simp [tryLookups, hb, hg]

/-- If every attempt observes `searchCancelled = false` and every biased
lookup throws a non-auth (transient) error, the loop issues exactly one
biased call per attempt, for all `remaining + 1` attempts, and ends by
throwing the error of the last attempt. -/
theorem geocodeLoop_allTransient (env : ResolveEnv) (delays : List Rat)
    (eSeq : Nat → GeoError)
    (hc : ∀ a, env.cancelledAtAttempt a = false)
    (hb : ∀ a, env.biased a = .err (eSeq a))
    (ha : ∀ a, isAuthError (eSeq a) = false) :
    ∀ remaining attempt,
      (geocodeLoop env delays remaining attempt).calls
        = (List.range' attempt (remaining + 1)).map
            (fun a => (a, CallKind.biased)) ∧
      (geocodeLoop env delays remaining attempt).outcome
        = .exhausted (eSeq (attempt + remaining)) := by
  intro remaining
  induction remaining with
  | zero =>
    intro attempt
    have ht := tryLookups_biased_err (hb attempt)
    simp [geocodeLoop, attemptOnce, hc attempt, ht, ha attempt,
      List.range'_succ]
  | succ r ih =>
    intro attempt
    have ht := tryLookups_biased_err (hb attempt)
    have h1 := ih (attempt + 1)
    have harith : attempt + 1 + r = attempt + (r + 1) := by omega
    simp [geocodeLoop, attemptOnce, hc attempt, ht, ha attempt, h1.1, h1.2,
      List.range'_succ, harith]

/-- Exhaustive case analysis of one loop iteration. -/
theorem attemptOnce_cases (env : ResolveEnv) (delays : List Rat) (attempt : Nat)
    (next : Option ResolveTrace) :
    (env.cancelledAtAttempt attempt = true ∧
      attemptOnce env delays attempt next = ⟨[], [], .cancelledErr, false⟩) ∨
    (∃ (g : Option GeoObject) (cs : List CallKind),
      attemptOnce env delays attempt next
        = ⟨cs.map (fun k => (attempt, k)), [], .ret g, false⟩) ∨
    (∃ (e : GeoError) (cs : List CallKind),
      isAuthError e = true ∧ attemptOnce env delays attempt next
        = ⟨cs.map (fun k => (attempt, k)), [], .authErr e, true⟩) ∨
    (∃ (e : GeoError) (cs : List CallKind),
      isAuthError e = false ∧ next = none ∧
      attemptOnce env delays attempt next
        = ⟨cs.map (fun k => (attempt, k)), [], .exhausted e, false⟩) ∨
    (∃ (e : GeoError) (cs : List CallKind) (rest : ResolveTrace),
      isAuthError e = false ∧ next = some rest ∧
      attemptOnce env delays attempt next
        = ⟨cs.map (fun k => (attempt, k)) ++ rest.calls,
           delayAt delays attempt :: rest.waits,
           rest.outcome, rest.authFlagSet⟩) := by
  unfold attemptOnce
  split
  case isTrue hcanc => exact Or.inl ⟨hcanc, rfl⟩
  case isFalse hcanc =>
    split
    case h_1 g cs heq => exact Or.inr (Or.inl ⟨g, cs, rfl⟩)
    case h_2 e cs heq =>
      split
      case isTrue hauth => exact Or.inr (Or.inr (Or.inl ⟨e, cs, hauth, rfl⟩))
      case isFalse hauth =>
        cases next with
        | none =>
          exact Or.inr (Or.inr (Or.inr (Or.inl
            ⟨e, cs, Bool.not_eq_true _ ▸ hauth, rfl, rfl⟩)))
        | some rest =>
          exact Or.inr (Or.inr (Or.inr (Or.inr
            ⟨e, cs, rest, Bool.not_eq_true _ ▸ hauth, rfl, rfl⟩)))

/-- The waits the loop sleeps: at most `remaining` of them (one before each
retry, never after the final attempt), and the `j`-th wait (0-indexed) is
`delayAt delays (attempt + j)`. -/
theorem geocodeLoop_waits (env : ResolveEnv) (delays : List Rat) :
    ∀ remaining attempt,
      (geocodeLoop env delays remaining attempt).waits.length ≤ remaining ∧
      ∀ j < (geocodeLoop env delays remaining attempt).waits.length,
        (geocodeLoop env delays remaining attempt).waits.getD j 0
          = delayAt delays (attempt + j) := by
  intro remaining
  induction remaining with
  | zero =>
    intro attempt
    have hcase := attemptOnce_cases env delays attempt none
    rcases hcase with ⟨_, heq⟩ | ⟨g, cs, heq⟩ | ⟨e, cs, _, heq⟩ |
        ⟨e, cs, _, _, heq⟩ | ⟨e, cs, rest, _, hnone, heq⟩
    · constructor <;> simp [geocodeLoop, heq]
    · constructor <;> simp [geocodeLoop, heq]
    · constructor <;> simp [geocodeLoop, heq]
    · constructor <;> simp [geocodeLoop, heq]
    · exact absurd hnone (by simp)
  | succ r ih =>
    intro attempt
    have hrest := ih (attempt + 1)
    have hcase := attemptOnce_cases env delays attempt
      (some (geocodeLoop env delays r (attempt + 1)))
    rcases hcase with ⟨_, heq⟩ | ⟨g, cs, heq⟩ | ⟨e, cs, _, heq⟩ |
        ⟨e, cs, _, hnone, heq⟩ | ⟨e, cs, rest, _, hsome, heq⟩
    · constructor <;> simp [geocodeLoop, heq]
    · constructor <;> simp [geocodeLoop, heq]
    · constructor <;> simp [geocodeLoop, heq]
    · exact absurd hnone (by simp)
    · have hrest' : rest = geocodeLoop env delays r (attempt + 1) :=
        (Option.some.injEq _ _ ▸ hsome).symm
      subst hrest'
      constructor
      · simp only [geocodeLoop, heq, List.length_cons]
        omega
      · intro j hj
        simp only [geocodeLoop, heq, List.length_cons] at hj ⊢
        cases j with
        | zero => simp
        | succ j' =>
          simp only [List.getD_cons_succ]
          have hj' : j' < (geocodeLoop env delays r (attempt + 1)).waits.length := by
            omega
          rw [hrest.2 j' hj']
          congr 1
          omega

/-- The loop never sets the auth flag without producing the auth outcome:
`authFlagSet = true` exactly when the outcome is `authErr e` for some `e`. -/
theorem geocodeLoop_authFlag_iff (env : ResolveEnv) (delays : List Rat) :
    ∀ remaining attempt,
      (geocodeLoop env delays remaining attempt).authFlagSet = true
        ↔ ∃ e, (geocodeLoop env delays remaining attempt).outcome
            = .authErr e := by
  intro remaining
  induction remaining with
  | zero =>
    intro attempt
    have hcase := attemptOnce_cases env delays attempt none
    rcases hcase with ⟨_, heq⟩ | ⟨g, cs, heq⟩ | ⟨e, cs, _, heq⟩ |
        ⟨e, cs, _, _, heq⟩ | ⟨e, cs, rest, _, hnone, heq⟩
    · simp [geocodeLoop, heq]
    · simp [geocodeLoop, heq]
    · simp [geocodeLoop, heq]
    · simp [geocodeLoop, heq]
    · exact absurd hnone (by simp)
  | succ r ih =>
    intro attempt
    have hcase := attemptOnce_cases env delays attempt
      (some (geocodeLoop env delays r (attempt + 1)))
    rcases hcase with ⟨_, heq⟩ | ⟨g, cs, heq⟩ | ⟨e, cs, _, heq⟩ |
        ⟨e, cs, _, hnone, heq⟩ | ⟨e, cs, rest, _, hsome, heq⟩
    · simp [geocodeLoop, heq]
    · simp [geocodeLoop, heq]
    · simp [geocodeLoop, heq]
    · exact absurd hnone (by simp)
    · have hrest' : rest = geocodeLoop env delays r (attempt + 1) :=
        (Option.some.injEq _ _ ▸ hsome).symm
      subst hrest'
      simp only [geocodeLoop, heq]
      exact ih (attempt + 1)

/-- C1: with a retry policy allowing `maxAttempts retryCount = retryCount + 1`
attempts, if the provider fails with a transient (non-auth) error on every
call, `geocodeWithRetry` issues exactly `maxAttempts retryCount` attempts,
each a single biased lookup (the global fallback never runs because the
biased lookup threw rather than returning empty), and then throws a Failed
outcome carrying the last error encountered. -/
theorem retryIssuesExactlyMaxAttempts (env : ResolveEnv) (retryCount : Nat)
    (delays : List Rat) (eSeq : Nat → GeoError)
    (hc : ∀ a, env.cancelledAtAttempt a = false)
    (hb : ∀ a, env.biased a = .err (eSeq a))
    (hbt : ∀ a, isAuthError (eSeq a) = false)
    (hg : ∀ a e, env.global a = .err e → isAuthError e = false) :
    (geocodeWithRetry env retryCount delays).calls
        = (List.range (maxAttempts retryCount)).map
            (fun a => (a, CallKind.biased)) ∧
    (geocodeWithRetry env retryCount delays).calls.length
        = maxAttempts retryCount ∧
    (geocodeWithRetry env retryCount delays).outcome
        = .exhausted (eSeq retryCount) := by
  have h := geocodeLoop_allTransient env delays eSeq hc hb hbt retryCount 0
  refine ⟨?_, ?_, ?_⟩
  · rw [geocodeWithRetry, h.1, maxAttempts, List.range_eq_range']
  · rw [geocodeWithRetry, h.1]
    simp [maxAttempts]
  · rw [geocodeWithRetry, h.2]
    simp

/-- Witness for C1: with `retryCount = 2` (three attempts) and an
always-rejecting provider, the resolver makes exactly the three biased calls
and throws the last error. -/
theorem retryIssuesExactlyMaxAttempts_witness :
    (geocodeWithRetry constErrEnv 2 [1, 2]).calls
        = (List.range (maxAttempts 2)).map (fun a => (a, CallKind.biased)) ∧
    (geocodeWithRetry constErrEnv 2 [1, 2]).calls.length = maxAttempts 2 ∧
    (geocodeWithRetry constErrEnv 2 [1, 2]).outcome
        = .exhausted ⟨some 500, some "timeout"⟩ :=
  retryIssuesExactlyMaxAttempts constErrEnv 2 [1, 2]
    (fun _ => ⟨some 500, some "timeout"⟩)
    (fun _ => rfl) (fun _ => rfl) (fun _ => rfl)
    (fun _ e he => by cases he; decide)

/-- C3: if at any attempt (however many attempts remain) the provider call
fails with an authentication/authorization error (status 401/403 or an
invalid-key message), the resolver performs no further retry attempts (all
issued calls belong to the current attempt and no backoff wait happens),
propagates the error to the caller, and sets the session-wide `mapError`
flag. -/
theorem authErrorStopsRetrying (env : ResolveEnv) (remaining attempt : Nat)
    (delays : List Rat) (e : GeoError)
    (hc : env.cancelledAtAttempt attempt = false)
    (he : env.biased attempt = .err e ∨
      (env.biased attempt = .ok none ∧ env.global attempt = .err e))
    (hauth : isAuthError e = true) :
    (geocodeLoop env delays remaining attempt).outcome = .authErr e ∧
    (geocodeLoop env delays remaining attempt).authFlagSet = true ∧
    (geocodeLoop env delays remaining attempt).waits = [] ∧
    ∀ p ∈ (geocodeLoop env delays remaining attempt).calls,
      p.1 = attempt := by
  rcases he with hb | ⟨hb, hg⟩
  · have ht := tryLookups_biased_err hb
    cases remaining <;>
      simp [geocodeLoop, attemptOnce, hc, ht, hauth]
  · have ht := tryLookups_global_err hb hg
    cases remaining <;>
      simp [geocodeLoop, attemptOnce, hc, ht, hauth]

/-- Witness for C3: a 403 on attempt 0 with five retries still allowed stops
the loop immediately. -/
theorem authErrorStopsRetrying_witness :
    (geocodeLoop authErrEnv [1, 2] 5 0).outcome = .authErr ⟨some 403, none⟩ ∧
    (geocodeLoop authErrEnv [1, 2] 5 0).authFlagSet = true ∧
    (geocodeLoop authErrEnv [1, 2] 5 0).waits = [] ∧
    ∀ p ∈ (geocodeLoop authErrEnv [1, 2] 5 0).calls, p.1 = 0 :=
  authErrorStopsRetrying authErrEnv 5 0 [1, 2] ⟨some 403, none⟩
    rfl (Or.inl rfl) (by decide)

/-- C4: within one attempt, the global (unrestricted) lookup is issued if and
only if the biased (viewport-restricted) lookup completed with no match; and
when both lookups find no match, the resolver returns the no-match outcome
immediately, issuing exactly those two calls and consuming no further retry
attempts, however many remain. -/
theorem globalFallbackIffBiasedEmpty (env : ResolveEnv)
    (remaining attempt : Nat) (delays : List Rat)
    (hc : env.cancelledAtAttempt attempt = false) :
    (CallKind.global ∈ attemptCalls (tryLookups env attempt)
        ↔ env.biased attempt = .ok none) ∧
    (env.biased attempt = .ok none → env.global attempt = .ok none →
      geocodeLoop env delays remaining attempt
        = ⟨[(attempt, CallKind.biased), (attempt, CallKind.global)], [],
           .ret none, false⟩) := by
  constructor
  · rcases hbv : env.biased attempt with g | e
    · cases g with
      | some g' => simp [tryLookups, attemptCalls, hbv]
      | none =>
        rcases hgv : env.global attempt with g2 | e2 <;>
          simp [tryLookups, attemptCalls, hbv, hgv]
    · simp [tryLookups, attemptCalls, hbv]
  · intro hb hg
    have ht := tryLookups_both_empty hb hg
    cases remaining <;> simp [geocodeLoop, attemptOnce, hc, ht]

/-- Witness for C4: when both lookups of attempt 0 find nothing, the global
fallback runs and the resolver returns no-match at once, with four retries
still allowed. -/
theorem globalFallbackIffBiasedEmpty_witness :
    (CallKind.global ∈ attemptCalls (tryLookups emptyEnv 0)
        ↔ emptyEnv.biased 0 = .ok none) ∧
    (emptyEnv.biased 0 = .ok none → emptyEnv.global 0 = .ok none →
      geocodeLoop emptyEnv [1, 2] 4 0
        = ⟨[(0, CallKind.biased), (0, CallKind.global)], [],
           .ret none, false⟩) :=
  globalFallbackIffBiasedEmpty emptyEnv 4 0 [1, 2] rfl

/-- C8: for a non-empty delay list, the resolver sleeps at most `retryCount`
waits (never after the final attempt), and the wait inserted before attempt
`k` (0-indexed, `k > 0`), i.e. the `(k-1)`-th wait, is
`delays[min (k-1) (delays.length - 1)]` seconds. -/
theorem backoffDelayFormula (env : ResolveEnv) (retryCount : Nat)
    (delays : List Rat) (hne : delays ≠ []) :
    (geocodeWithRetry env retryCount delays).waits.length ≤ retryCount ∧
    ∀ k, 0 < k →
      k - 1 < (geocodeWithRetry env retryCount delays).waits.length →
      (geocodeWithRetry env retryCount delays).waits.getD (k - 1) 0
        = delays.getD (min (k - 1) (delays.length - 1)) 0 := by
  have h := geocodeLoop_waits env delays retryCount 0
  refine ⟨h.1, ?_⟩
  intro k hk hlt
  have := h.2 (k - 1) hlt
  rw [geocodeWithRetry, this, delayAt]
  simp

/-- Witness for C8: always-failing provider, `retryCount = 3`,
`delays = [1, 2]`: the three waits are 1, 2, 2 seconds. -/
theorem backoffDelayFormula_witness :
    (geocodeWithRetry constErrEnv 3 [1, 2]).waits.length ≤ 3 ∧
    ∀ k, 0 < k →
      k - 1 < (geocodeWithRetry constErrEnv 3 [1, 2]).waits.length →
      (geocodeWithRetry constErrEnv 3 [1, 2]).waits.getD (k - 1) 0
        = [(1 : Rat), 2].getD (min (k - 1) ([(1 : Rat), 2].length - 1)) 0 :=
  backoffDelayFormula constErrEnv 3 [1, 2] (by simp)

/-- One job contributes exactly one unit to
`foundAddressesCount + notFoundAddresses.length`. -/
theorem jobStateUpdate_count (tr : ResolveTrace) (addr : String) (i : Nat)
    (st : AppState) :
    (jobStateUpdate tr addr i st).foundAddressesCount
      + (jobStateUpdate tr addr i st).notFoundAddresses.length
    = st.foundAddressesCount + st.notFoundAddresses.length + 1 := by
  unfold jobStateUpdate
  cases htr : tr.outcome with
  | ret g =>
    cases g with
    | none => cases h : tr.authFlagSet <;> simp <;> omega
    | some g' => cases h : tr.authFlagSet <;> simp <;> omega
  | cancelledErr => cases h : tr.authFlagSet <;> simp <;> omega
  | authErr e => cases h : tr.authFlagSet <;> simp <;> omega
  | exhausted e => cases h : tr.authFlagSet <;> simp <;> omega

/-- A job changes `mapError` only by setting the invalid-key message when
its resolution set the auth flag. -/
theorem jobStateUpdate_mapError (tr : ResolveTrace) (addr : String) (i : Nat)
    (st : AppState) :
    (jobStateUpdate tr addr i st).mapError
      = if tr.authFlagSet then some invalidKeyMessage else st.mapError := by
  unfold jobStateUpdate
  cases htr : tr.outcome with
  | ret g =>
    cases g with
    | none => cases h : tr.authFlagSet <;> simp [h]
    | some g' => cases h : tr.authFlagSet <;> simp [h]
  | cancelledErr => cases h : tr.authFlagSet <;> simp [h]
  | authErr e => cases h : tr.authFlagSet <;> simp [h]
  | exhausted e => cases h : tr.authFlagSet <;> simp [h]

/-- A job never changes `totalAddressesCount`. -/
theorem jobStateUpdate_total (tr : ResolveTrace) (addr : String) (i : Nat)
    (st : AppState) :
    (jobStateUpdate tr addr i st).totalAddressesCount
      = st.totalAddressesCount := by
  unfold jobStateUpdate
  cases htr : tr.outcome with
  | ret g =>
    cases g with
    | none => cases h : tr.authFlagSet <;> simp
    | some g' => cases h : tr.authFlagSet <;> simp
  | cancelledErr => cases h : tr.authFlagSet <;> simp
  | authErr e => cases h : tr.authFlagSet <;> simp
  | exhausted e => cases h : tr.authFlagSet <;> simp

/-- A job never touches the cancelled flag (only `stopSearch` does). -/
theorem jobStateUpdate_cancelled (tr : ResolveTrace) (addr : String)
    (i : Nat) (st : AppState) :
    (jobStateUpdate tr addr i st).searchCancelled = st.searchCancelled := by
  unfold jobStateUpdate
  cases htr : tr.outcome with
  | ret g =>
    cases g with
    | none => cases h : tr.authFlagSet <;> simp
    | some g' => cases h : tr.authFlagSet <;> simp
  | cancelledErr => cases h : tr.authFlagSet <;> simp
  | authErr e => cases h : tr.authFlagSet <;> simp
  | exhausted e => cases h : tr.authFlagSet <;> simp

/-- Upper bound: the loop adds at most one count unit per job. -/
theorem runJobs_count_le (benv : BatchEnv) (rc : Nat) (d : List Rat) :
    ∀ (jobs : List String) (i : Nat) (st : AppState),
      (runJobs benv rc d jobs i st).1.foundAddressesCount
        + (runJobs benv rc d jobs i st).1.notFoundAddresses.length
      ≤ st.foundAddressesCount + st.notFoundAddresses.length
        + jobs.length := by
  intro jobs
  induction jobs with
  | nil =>
    intro i st
    simp [runJobs]
  | cons addr rest ih =>
    intro i st
    simp only [runJobs]
    split
    · simp
    · split
      · have h := jobStateUpdate_count
          (geocodeWithRetry (benv.jobEnv i) rc d) addr i st
        simp only [stopSearch, List.length_cons]
        omega
      · have h := jobStateUpdate_count
          (geocodeWithRetry (benv.jobEnv i) rc d) addr i st
        have h2 := ih (i + 1)
          (jobStateUpdate (geocodeWithRetry (benv.jobEnv i) rc d) addr i st)
        simp only [List.length_cons]
        omega

/-- The loop never changes `totalAddressesCount`. -/
theorem runJobs_total (benv : BatchEnv) (rc : Nat) (d : List Rat) :
    ∀ (jobs : List String) (i : Nat) (st : AppState),
      (runJobs benv rc d jobs i st).1.totalAddressesCount
        = st.totalAddressesCount := by
  intro jobs
  induction jobs with
  | nil =>
    intro i st
    simp [runJobs]
  | cons addr rest ih =>
    intro i st
    simp only [runJobs]
    split
    · rfl
    · split
      · have h := jobStateUpdate_total
          (geocodeWithRetry (benv.jobEnv i) rc d) addr i st
        simpa [stopSearch] using h
      · have h2 := ih (i + 1)
          (jobStateUpdate (geocodeWithRetry (benv.jobEnv i) rc d) addr i st)
        rw [h2, jobStateUpdate_total]

/-- Exact count on completion without cancellation: if the cancelled flag
is never observed set at a job boundary and the loop did not end in a
`stopSearch` break (final cancelled flag off), every job contributes
exactly one count unit and no job is skipped. -/
theorem runJobs_complete_eq (benv : BatchEnv) (rc : Nat) (d : List Rat)
    (hcan : ∀ j, benv.cancelAtJob j = false) :
    ∀ (jobs : List String) (i : Nat) (st : AppState),
      (runJobs benv rc d jobs i st).1.searchCancelled = false →
      (runJobs benv rc d jobs i st).1.foundAddressesCount
          + (runJobs benv rc d jobs i st).1.notFoundAddresses.length
        = st.foundAddressesCount + st.notFoundAddresses.length
          + jobs.length := by
  intro jobs
  induction jobs with
  | nil =>
    intro i st _
    simp [runJobs]
  | cons addr rest ih =>
    intro i st hdone
    have hcnt := jobStateUpdate_count
      (geocodeWithRetry (benv.jobEnv i) rc d) addr i st
    revert hdone
    simp only [runJobs]
    split
    case isTrue hcond =>
      rw [hcan i] at hcond
      simp at hcond
    case isFalse =>
      split
      case isTrue hcond2 =>
        intro hdone
        simp [stopSearch] at hdone
      case isFalse =>
        intro hdone
        have hrest := ih (i + 1)
          (jobStateUpdate (geocodeWithRetry (benv.jobEnv i) rc d) addr i st)
          hdone
        simp only [List.length_cons]
        omega

/-- The attempted jobs form the contiguous index range starting at `i`. -/
theorem runJobs_trace (benv : BatchEnv) (rc : Nat) (d : List Rat) :
    ∀ (jobs : List String) (i : Nat) (st : AppState),
      (runJobs benv rc d jobs i st).2
        = List.range' i (runJobs benv rc d jobs i st).2.length ∧
      (runJobs benv rc d jobs i st).2.length ≤ jobs.length := by
  intro jobs
  induction jobs with
  | nil =>
    intro i st
    simp [runJobs]
  | cons addr rest ih =>
    intro i st
    simp only [runJobs]
    split
    · simp
    · split
      · simp [List.range'_succ]
      · have h := ih (i + 1)
          (jobStateUpdate (geocodeWithRetry (benv.jobEnv i) rc d) addr i st)
        simp only [List.length_cons]
        refine ⟨?_, by omega⟩
        rw [List.range'_succ]
        congr 1
        exact h.1

/-- If the cancelled flag is observed set at the top of every iteration with
index above `i`, running the full list is the same as running only its first
`i + 1 - idx` jobs (from start index `idx`): later jobs are never looked
at. -/
theorem runJobs_cancelled_after (benv : BatchEnv) (rc : Nat) (d : List Rat)
    (i : Nat) (hcan : ∀ j, i < j → benv.cancelAtJob j = true) :
    ∀ (jobs : List String) (idx : Nat) (st : AppState),
      runJobs benv rc d jobs idx st
        = runJobs benv rc d (jobs.take (i + 1 - idx)) idx st := by
  intro jobs
  induction jobs with
  | nil =>
    intro idx st
    simp
  | cons addr rest ih =>
    intro idx st
    by_cases hidx : i < idx
    · have h0 : i + 1 - idx = 0 := by omega
      rw [h0]
      simp only [List.take_zero, runJobs, hcan idx hidx, if_true]
    · have h0 : i + 1 - idx = (i - idx) + 1 := by omega
      rw [h0]
      simp only [List.take_succ_cons, runJobs]
      split
      · rfl
      · split
        · rfl
        · have := ih (idx + 1)
            (jobStateUpdate (geocodeWithRetry (benv.jobEnv idx) rc d)
              addr idx st)
          have harith : i + 1 - (idx + 1) = i - idx := by omega
          rw [this, harith]

/-- A thrown resolution (and also a no-match return) appends the raw address
to `notFoundAddresses`. -/
theorem jobStateUpdate_notFound_of_threw (tr : ResolveTrace) (addr : String)
    (i : Nat) (st : AppState) (h : outcomeThrew tr.outcome = true) :
    (jobStateUpdate tr addr i st).notFoundAddresses
      = st.notFoundAddresses ++ [addr] := by
  unfold jobStateUpdate
  cases htr : tr.outcome with
  | ret g =>
    rw [htr] at h
    simp [outcomeThrew] at h
  | cancelledErr => cases hf : tr.authFlagSet <;> simp
  | authErr e => cases hf : tr.authFlagSet <;> simp
  | exhausted e => cases hf : tr.authFlagSet <;> simp

theorem searchInitState_total (st : AppState) (input : String) :
    (searchInitState st input).totalAddressesCount
      = (parseAddresses input).length := rfl

theorem searchInitState_found (st : AppState) (input : String) :
    (searchInitState st input).foundAddressesCount = 0 := rfl

theorem searchInitState_notFound (st : AppState) (input : String) :
    (searchInitState st input).notFoundAddresses = [] := rfl

theorem searchInitState_mapError (st : AppState) (input : String) :
    (searchInitState st input).mapError = st.mapError := rfl

/-- C2: at every point of a run (the state after any prefix of the parsed
job list) `foundAddressesCount + notFoundAddresses.length ≤
totalAddressesCount`; and when the run completes without cancellation (the
cancelled flag is never observed set at a job boundary and the run did not
end in a `stopSearch` break, i.e. the final cancelled flag is off) the sum
equals the total: each parsed job contributes exactly one unit. -/
theorem sessionCountInvariant (benv : BatchEnv) (rc : Nat) (d : List Rat)
    (input : String) (st : AppState) (hmap : st.mapInitialized = true) :
    (∀ m : Nat,
      (runJobs benv rc d ((parseAddresses input).take m) 0
          (searchInitState st input)).1.foundAddressesCount
        + (runJobs benv rc d ((parseAddresses input).take m) 0
            (searchInitState st input)).1.notFoundAddresses.length
      ≤ (searchInitState st input).totalAddressesCount) ∧
    ((∀ j, benv.cancelAtJob j = false) →
      (startSearch benv rc d input st).1.searchCancelled = false →
      (startSearch benv rc d input st).1.foundAddressesCount
        + (startSearch benv rc d input st).1.notFoundAddresses.length
      = (startSearch benv rc d input st).1.totalAddressesCount) := by
  constructor
  · intro m
    have h := runJobs_count_le benv rc d ((parseAddresses input).take m) 0
      (searchInitState st input)
    have hlen : ((parseAddresses input).take m).length
        ≤ (parseAddresses input).length := by
      simp [List.length_take]
    rw [searchInitState_total]
    simp only [searchInitState_found, searchInitState_notFound,
      List.length_nil] at h
    omega
  · intro hcan hdone
    have hni : ¬(st.mapInitialized = false) := by
      rw [hmap]
      simp
    revert hdone
    simp only [startSearch]
    rw [if_neg hni]
    split
    · rename_i hlen
      intro _
      simp only [searchInitState_total, searchInitState_found,
        searchInitState_notFound, List.length_nil]
      omega
    · intro hdone
      have hdone2 : (runJobs benv rc d (parseAddresses input) 0
          (searchInitState st input)).1.searchCancelled = false := by
        simpa using hdone
      have h := runJobs_complete_eq benv rc d hcan
        (parseAddresses input) 0 (searchInitState st input) hdone2
      have ht := runJobs_total benv rc d
        (parseAddresses input) 0 (searchInitState st input)
      simp only [searchInitState_found, searchInitState_notFound,
        List.length_nil] at h
      rw [searchInitState_total] at ht
      simp
      omega

/-- Witness for C2 at input `"A\n\nB"` (A found, B not found). -/
theorem sessionCountInvariant_witness :
    (runJobs mixedBatchEnv 1 [1] ((parseAddresses "A\n\nB").take 1) 0
        (searchInitState initialAppState "A\n\nB")).1.foundAddressesCount
      + (runJobs mixedBatchEnv 1 [1] ((parseAddresses "A\n\nB").take 1) 0
          (searchInitState initialAppState "A\n\nB")).1.notFoundAddresses.length
      ≤ (searchInitState initialAppState "A\n\nB").totalAddressesCount ∧
    (startSearch mixedBatchEnv 1 [1] "A\n\nB"
        initialAppState).1.foundAddressesCount
      + (startSearch mixedBatchEnv 1 [1] "A\n\nB"
          initialAppState).1.notFoundAddresses.length
      = (startSearch mixedBatchEnv 1 [1] "A\n\nB"
          initialAppState).1.totalAddressesCount :=
  have h := sessionCountInvariant mixedBatchEnv 1 [1] "A\n\nB"
    initialAppState rfl
  ⟨h.1 1, h.2 (fun _ => rfl) (by decide)⟩

/-- C5: the total is the number of input lines that are non-empty after
trimming; the jobs are processed in input order (the attempted indices are
the contiguous range from 0); and on an empty parsed list the run completes
immediately with `total = 0`, `foundCount = 0`, empty `notFound`, searching
off, and no job attempted. -/
theorem parsingSetsTotal (benv : BatchEnv) (rc : Nat) (d : List Rat)
    (input : String) (st : AppState) (hmap : st.mapInitialized = true) :
    (startSearch benv rc d input st).1.totalAddressesCount
      = (jsSplitNewline input).countP
          (fun l => decide ((jsTrim l).length > 0)) ∧
    (startSearch benv rc d input st).2
      = List.range' 0 (startSearch benv rc d input st).2.length ∧
    (parseAddresses input = [] →
      (startSearch benv rc d input st).1.totalAddressesCount = 0 ∧
      (startSearch benv rc d input st).1.foundAddressesCount = 0 ∧
      (startSearch benv rc d input st).1.notFoundAddresses = [] ∧
      (startSearch benv rc d input st).1.isSearching = false ∧
      (startSearch benv rc d input st).2 = []) := by
  have hni : ¬(st.mapInitialized = false) := by
    rw [hmap]
    simp
  have hcount : (parseAddresses input).length
      = (jsSplitNewline input).countP
          (fun l => decide ((jsTrim l).length > 0)) := by
    show (List.filter _ (List.map jsTrim (jsSplitNewline input))).length = _
    rw [← List.countP_eq_length_filter, List.countP_map]
    rfl
  refine ⟨?_, ?_, ?_⟩
  · rw [← hcount]
    simp only [startSearch]
    rw [if_neg hni]
    split
    · simp only [searchInitState_total]
    · have ht := runJobs_total benv rc d
        (parseAddresses input) 0 (searchInitState st input)
      rw [searchInitState_total] at ht
      simpa using ht
  · simp only [startSearch]
    rw [if_neg hni]
    split
    · simp
    · exact (runJobs_trace benv rc d (parseAddresses input) 0
        (searchInitState st input)).1
  · intro hempty
    have hlen : (parseAddresses input).length = 0 := by rw [hempty]; rfl
    simp only [startSearch]
    rw [if_neg hni, if_pos hlen]
    simp only [searchInitState_total, searchInitState_found,
      searchInitState_notFound]
    simp [hlen]

/-- Witness for C5 at the blank input `" \n "` (two lines, both empty after
trimming). -/
theorem parsingSetsTotal_witness :
    (startSearch mixedBatchEnv 1 [1] " \n "
        initialAppState).1.totalAddressesCount
      = (jsSplitNewline " \n ").countP
          (fun l => decide ((jsTrim l).length > 0)) ∧
    (startSearch mixedBatchEnv 1 [1] " \n " initialAppState).2
      = List.range' 0
          (startSearch mixedBatchEnv 1 [1] " \n " initialAppState).2.length ∧
    (startSearch mixedBatchEnv 1 [1] " \n "
        initialAppState).1.totalAddressesCount = 0 ∧
    (startSearch mixedBatchEnv 1 [1] " \n "
        initialAppState).1.foundAddressesCount = 0 ∧
    (startSearch mixedBatchEnv 1 [1] " \n "
        initialAppState).1.notFoundAddresses = [] ∧
    (startSearch mixedBatchEnv 1 [1] " \n "
        initialAppState).1.isSearching = false ∧
    (startSearch mixedBatchEnv 1 [1] " \n " initialAppState).2 = [] :=
  have h := parsingSetsTotal mixedBatchEnv 1 [1] " \n " initialAppState rfl
  have h3 := h.2.2 rfl
  ⟨h.1, h.2.1, h3.1, h3.2.1, h3.2.2.1, h3.2.2.2.1, h3.2.2.2.2⟩

/-- C6: if the first job's resolution hits an authentication error, its raw
text is the sole entry appended to `notFound`, the session is cancelled
(`stopSearch`: cancelled flag set, searching off), and jobs 2..N are never
attempted (the attempted-trace is exactly `[0]`), so they never appear in
`notFound`. -/
theorem authOnFirstJobHaltsRun (benv : BatchEnv) (rc : Nat) (d : List Rat)
    (input : String) (st : AppState) (addr : String) (rest : List String)
    (hmap : st.mapInitialized = true)
    (hsplit : parseAddresses input = addr :: rest)
    (hc0 : benv.cancelAtJob 0 = false)
    (hauth : (geocodeWithRetry (benv.jobEnv 0) rc d).authFlagSet = true) :
    (startSearch benv rc d input st).2 = [0] ∧
    (startSearch benv rc d input st).1.notFoundAddresses = [addr] ∧
    (startSearch benv rc d input st).1.searchCancelled = true ∧
    (startSearch benv rc d input st).1.isSearching = false := by
  have hthrew : outcomeThrew
      (geocodeWithRetry (benv.jobEnv 0) rc d).outcome = true := by
    obtain ⟨e, he⟩ := (geocodeLoop_authFlag_iff (benv.jobEnv 0) d rc 0).mp
      hauth
    rw [geocodeWithRetry, he]
    rfl
  have hstop : (outcomeThrew (geocodeWithRetry (benv.jobEnv 0) rc d).outcome
      && (jobStateUpdate (geocodeWithRetry (benv.jobEnv 0) rc d) addr 0
        (searchInitState st input)).mapError.isSome) = true := by
    rw [hthrew, jobStateUpdate_mapError, hauth]
    rfl
  have hnf := jobStateUpdate_notFound_of_threw
    (geocodeWithRetry (benv.jobEnv 0) rc d) addr 0
    (searchInitState st input) hthrew
  rw [searchInitState_notFound] at hnf
  have hni : ¬(st.mapInitialized = false) := by
    rw [hmap]
    simp
  have hlen : ¬((parseAddresses input).length = 0) := by
    rw [hsplit]
    simp
  simp only [startSearch]
  rw [if_neg hni, if_neg hlen, hsplit]
  simp only [runJobs]
  rw [if_neg (by rw [hc0]; simp), if_pos hstop]
  simp [stopSearch, hnf]

/-- Witness for C6: both jobs of `"A\nB"` would hit a 403, the run stops
after job 1 with only `"A"` in the not-found list. -/
theorem authOnFirstJobHaltsRun_witness :
    (startSearch authBatchEnv 2 [1] "A\nB" initialAppState).2 = [0] ∧
    (startSearch authBatchEnv 2 [1] "A\nB"
        initialAppState).1.notFoundAddresses = ["A"] ∧
    (startSearch authBatchEnv 2 [1] "A\nB"
        initialAppState).1.searchCancelled = true ∧
    (startSearch authBatchEnv 2 [1] "A\nB"
        initialAppState).1.isSearching = false :=
  authOnFirstJobHaltsRun authBatchEnv 2 [1] "A\nB" initialAppState
    "A" ["B"] rfl (by decide) rfl rfl

/-- C7: `stopSearch` sets the cancelled flag synchronously; once the flag is
observed set at every job boundary after job `i`, the run is identical to a
run of only the first `i + 1` jobs (so jobs `i+1..N` are never attempted and
contribute nothing to `notFound`), every attempted index is at most `i`, and
an attempt that observes the flag inside the resolver issues no provider
call at all. -/
theorem cancellationPreventsLaterJobs (benv : BatchEnv) (rc : Nat)
    (d : List Rat) (i : Nat) (jobs : List String) (st : AppState)
    (hcan : ∀ j, i < j → benv.cancelAtJob j = true) :
    (∀ s : AppState, (stopSearch s).searchCancelled = true) ∧
    runJobs benv rc d jobs 0 st
      = runJobs benv rc d (jobs.take (i + 1)) 0 st ∧
    (∀ j ∈ (runJobs benv rc d jobs 0 st).2, j ≤ i) ∧
    (∀ (env : ResolveEnv) (rem a : Nat),
      env.cancelledAtAttempt a = true →
      geocodeLoop env d rem a = ⟨[], [], .cancelledErr, false⟩) := by
  have heq := runJobs_cancelled_after benv rc d i hcan jobs 0 st
  rw [Nat.sub_zero] at heq
  refine ⟨fun s => rfl, heq, ?_, ?_⟩
  · intro j hj
    rw [heq] at hj
    have htr := runJobs_trace benv rc d (jobs.take (i + 1)) 0 st
    rw [htr.1, List.mem_range'] at hj
    obtain ⟨k, hk, hjk⟩ := hj
    have hlen := htr.2
    have htake : (jobs.take (i + 1)).length ≤ i + 1 := by
      simp [List.length_take]
    omega
  · intro env rem a h
    cases rem <;> simp [geocodeLoop, attemptOnce, h]

/-- Witness for C7 with the flag set from the start (`i = 0`): only the
first of three jobs can even be reached. -/
theorem cancellationPreventsLaterJobs_witness :
    (∀ s : AppState, (stopSearch s).searchCancelled = true) ∧
    runJobs cancelAllBatchEnv 1 [1] ["A", "B", "C"] 0 initialAppState
      = runJobs cancelAllBatchEnv 1 [1] (["A", "B", "C"].take (0 + 1)) 0
          initialAppState ∧
    (∀ j ∈ (runJobs cancelAllBatchEnv 1 [1] ["A", "B", "C"] 0
        initialAppState).2, j ≤ 0) ∧
    (∀ (env : ResolveEnv) (rem a : Nat),
      env.cancelledAtAttempt a = true →
      geocodeLoop env [1] rem a = ⟨[], [], .cancelledErr, false⟩) :=
  cancellationPreventsLaterJobs cancelAllBatchEnv 1 [1] 0
    ["A", "B", "C"] initialAppState (fun _ _ => rfl)

/-- C10: starting a search while the map is not initialized is a no-op: no
job is attempted (hence no provider call) and the state — `isSearching`,
`foundAddressesCount`, `totalAddressesCount`, `notFoundAddresses`,
`mapError`, the cancelled flag and the placemark collection — is returned
unchanged. -/
theorem uninitializedMapIsNoOp (benv : BatchEnv) (rc : Nat) (d : List Rat)
    (input : String) (st : AppState) (hmap : st.mapInitialized = false) :
    startSearch benv rc d input st = (st, []) := by
  simp [startSearch, hmap]

/-- Witness for C10: a dirty session state passes through unchanged. -/
theorem uninitializedMapIsNoOp_witness :
    startSearch mixedBatchEnv 1 [1] "A" uninitState = (uninitState, []) :=
  uninitializedMapIsNoOp mixedBatchEnv 1 [1] "A" uninitState rfl

/-- Everything that survives the delays filter is strictly positive. -/
theorem parseDelays_pos (tokens : List (Option Rat)) :
    ∀ d ∈ parseDelays tokens, 0 < d := by
  intro d hd
  simp only [parseDelays, List.mem_filterMap] at hd
  obtain ⟨t, _, ht⟩ := hd
  cases t with
  | none => simp at ht
  | some n =>
    by_cases h : 0 < n
    · simp [h] at ht
      exact ht ▸ h
    · simp [h] at ht

/-- C9: when the delays text parses to an empty sequence of positive
numbers, saving is rejected and both the in-memory settings and the
persisted blob stay unchanged; `parseDelays` only ever produces strictly
positive values; the default delay list is non-empty and positive; and both
the in-memory and the persisted delay list stay non-empty and positive
across any save — so the delay sequence a run reads is never empty. -/
theorem emptyDelaysRejected (tempApiKey : String) (tempRetryCount : Int)
    (delayTokens : List (Option Rat)) (st : SettingsState) :
    (parseDelays delayTokens = [] →
      saveSettings tempApiKey tempRetryCount delayTokens st = st) ∧
    (∀ d ∈ parseDelays delayTokens, 0 < d) ∧
    (defaultSettings.retryDelays ≠ [] ∧
      ∀ d ∈ defaultSettings.retryDelays, 0 < d) ∧
    ((st.settings.retryDelays ≠ [] ∧
        ∀ d ∈ st.settings.retryDelays, 0 < d) →
      ((saveSettings tempApiKey tempRetryCount delayTokens
          st).settings.retryDelays ≠ [] ∧
       ∀ d ∈ (saveSettings tempApiKey tempRetryCount delayTokens
          st).settings.retryDelays, 0 < d)) ∧
    (∀ s : AppSettings,
      (saveSettings tempApiKey tempRetryCount delayTokens st).stored
          = some s →
      st.stored = some s ∨
        (s.retryDelays ≠ [] ∧ ∀ d ∈ s.retryDelays, 0 < d)) := by
  refine ⟨?_, parseDelays_pos delayTokens, ⟨by simp [defaultSettings],
    by decide⟩, ?_, ?_⟩
  · intro hempty
    simp only [saveSettings]
    rw [if_pos hempty]
  · intro hprev
    simp only [saveSettings]
    split
    · exact hprev
    · split
      · exact hprev
      · rename_i hne _
        exact ⟨hne, parseDelays_pos delayTokens⟩
  · intro s hs
    revert hs
    simp only [saveSettings]
    split
    · intro hs
      exact Or.inl hs
    · split
      · intro hs
        exact Or.inl hs
      · rename_i hne _
        intro hs
        right
        cases hs
        exact ⟨hne, parseDelays_pos delayTokens⟩

/-- Witness for C9: a delays text parsing to `[-1, NaN]` is rejected and
changes nothing; a save with delays `[2]` yields a non-empty positive
list. -/
theorem emptyDelaysRejected_witness :
    saveSettings "key" 3 [some (-1), none] freshSettingsState
        = freshSettingsState ∧
    (∀ d ∈ parseDelays [some (-1), none, some 2], 0 < d) ∧
    ((saveSettings "key" 3 [some 2]
        freshSettingsState).settings.retryDelays ≠ [] ∧
      ∀ d ∈ (saveSettings "key" 3 [some 2]
        freshSettingsState).settings.retryDelays, 0 < d) :=
  have h1 := emptyDelaysRejected "key" 3 [some (-1), none] freshSettingsState
  have h2 := emptyDelaysRejected "key" 3 [some (-1), none, some 2]
    freshSettingsState
  have h3 := emptyDelaysRejected "key" 3 [some 2] freshSettingsState
  ⟨h1.1 (by decide), h2.2.1, h3.2.2.2.1 (by decide)⟩

end MapYandex
